import Mathlib

/-!
# Verification of the EIP (Elastic IP) service core

Shallow embedding of `pkg/cloud/services/network/eip/eips.go`: the
allocation, reuse and release logic for cluster-owned Elastic IP
addresses.  The EC2 client is modelled as a record of response
functions (indexed by a per-operation attempt counter so that retry
behaviour can be expressed), and every provider call is recorded in an
explicit event trace.  External collaborators that are not part of the
repository sources (the retrying waiter, the filter builders, the tag
builder, the AWS error-code helpers) are modelled from the
specification and marked as such in their doc comments.
-/

namespace CapaEip

/-- An AWS API error: the provider error code plus a message.
`awserrors.Code` (not under the repository sources) extracts the code;
here the code is simply a field. -/
structure AwsErr where
  code : String
  msg : String
deriving DecidableEq, Repr

/-- A Go-side error value as returned by the service functions:
either a wrap of an underlying AWS error (`errors.Wrap`), a plain
message (`errors.New` / `fmt.Errorf` / `errors.Errorf`), or the
distinguished value standing for a nil-pointer dereference panic. -/
inductive GoErr
  | wrapped (msg : String) (cause : AwsErr)
  | message (msg : String)
  | nilDeref
deriving DecidableEq, Repr

/-- `true` exactly when the result is an error. -/
def isErr {α : Type} : Except GoErr α → Bool
  | .error _ => true
  | .ok _ => false

/-- Modelled from the spec: the cluster-identity filter and the
provider-role filter built by the external `filter.EC2.Cluster` /
`filter.EC2.ProviderRole` helpers (§4.1 of the spec; the `filter`
package is not under the repository sources). -/
inductive Filter
  | cluster (name : String)
  | providerRole (role : String)
deriving DecidableEq, Repr

/-- Modelled from the spec (§3): an address record carries the
`cluster` and `role` tags; `Filter` matching is by tag equality. -/
structure Address where
  allocationId : Option String
  publicIp : Option String
  associationId : Option String
  clusterTag : Option String
  roleTag : Option String
deriving DecidableEq, Repr

/-- Modelled from the spec (§3, §4.1): whether an address satisfies a
single filter, by tag equality. -/
def Filter.matchesAddr : Filter → Address → Bool
  | Filter.cluster c, a => a.clusterTag == some c
  | Filter.providerRole r, a => a.roleTag == some r

/-- An address matches a filter list when it matches every filter. -/
def matchesAll (fs : List Filter) (a : Address) : Bool :=
  fs.all fun f => f.matchesAddr a

/-- `infrav1.BuildParams` (configuration data type, consumed read-only). -/
structure BuildParams where
  clusterName : String
  lifecycle : String
  name : Option String
  role : Option String
  additional : List (String × String)
deriving DecidableEq, Repr

/-- Modelled from the spec (§6 tag builder): the external
`tags.BuildParamsToTagSpecification` is kept abstract as the pair of
the resource type and the build params attached to the create request. -/
structure TagSpecification where
  resourceType : String
  params : BuildParams
deriving DecidableEq, Repr

/-- Modelled from the spec: external tag builder
`tags.BuildParamsToTagSpecification` (not under the repository sources). -/
def BuildParamsToTagSpecification (resourceType : String) (params : BuildParams) :
    TagSpecification :=
  ⟨resourceType, params⟩

/-- `ec2.ResourceTypeElasticIp`. -/
def resourceTypeElasticIp : String := "elastic-ip"

/-- `infrav1.ResourceLifecycleOwned`. -/
def resourceLifecycleOwned : String := "owned"

/-- Modelled constants mirroring the `awserrors` package (not under the
repository sources): provider error codes used by the release path. -/
def authFailure : String := "AuthFailure"

/-- `awserrors.InUseIPAddress`. -/
def inUseIPAddress : String := "InvalidIPAddress.InUse"

/-- `awserrors.AssociationIDNotFound`. -/
def associationIDNotFound : String := "InvalidAssociationID.NotFound"

/-- The error surfaced by the waiter when the attempt budget runs out
without any retryable error having been observed. -/
def waiterTimeout : AwsErr := ⟨"WaiterTimeout", "timed out waiting for the condition"⟩

/-- `infrav1.PublicIpv4PoolFallbackOrder` (values `amazon-pool` and `none`). -/
inductive PublicIpv4PoolFallbackOrder
  | amazonPool
  | fallbackNone
deriving DecidableEq, Repr

/-- Rendering used by the `fmt.Errorf` message in `setByoPublicIpv4`. -/
def PublicIpv4PoolFallbackOrder.render : PublicIpv4PoolFallbackOrder → String
  | .amazonPool => "amazon-pool"
  | .fallbackNone => "none"

/-- `infrav1.VPCSpec`, restricted to the fields read by this core. -/
structure VPCSpec where
  publicIpv4Pool : Option String
  publicIpv4PoolFallBackOrder : Option PublicIpv4PoolFallbackOrder
deriving DecidableEq, Repr

/-- `ec2.AllocateAddressInput`, restricted to the fields this core sets. -/
structure AllocateAddressInput where
  domain : Option String
  tagSpecifications : List TagSpecification
  publicIpv4Pool : Option String
deriving DecidableEq, Repr

/-- `ec2.AllocateAddressOutput`, restricted to the field this core reads. -/
structure AllocateAddressOutput where
  allocationId : Option String
deriving DecidableEq, Repr

/-- `ec2.DescribeAddressesOutput`. -/
structure DescribeAddressesOutput where
  addresses : List Address
deriving DecidableEq, Repr

/-- One pool description from `ec2.DescribePublicIpv4PoolsOutput`. -/
structure PublicIpv4PoolDesc where
  totalAvailableAddressCount : Option Int
deriving DecidableEq, Repr

/-- `ec2.DescribePublicIpv4PoolsOutput`. -/
structure DescribePublicIpv4PoolsOutput where
  publicIpv4Pools : List PublicIpv4PoolDesc
deriving DecidableEq, Repr

/-- One provider call, as recorded in the instrumentation trace.
`enterReleaseAddress` is pure instrumentation marking each invocation
of the single-address releaser (no provider call of its own). -/
inductive Event
  | describeAddressesCall (filters : List Filter)
  | allocateCall (input : AllocateAddressInput)
  | disassociateCall (associationId : Option String)
  | releaseCall (allocationId : Option String)
  | describePoolsCall (poolIds : List (Option String))
  | enterReleaseAddress (ip : Address)
deriving DecidableEq, Repr

/-- Mutable call-side state threaded through a run: the event trace and
one attempt counter per provider operation (each counter equals the
number of calls of that operation issued so far). -/
structure CallState where
  trace : List Event
  nAllocate : Nat
  nDisassociate : Nat
  nRelease : Nat
deriving DecidableEq, Repr

/-- The empty starting state. -/
def CallState.init : CallState := ⟨[], 0, 0, 0⟩

/-- The EC2 client (`ec2iface.EC2API`), modelled as a record of
response functions.  Responses of the operations invoked repeatedly on
the release path are indexed by the attempt counter, so a run can
observe different provider answers on different attempts. -/
structure EC2Client where
  describeAddressesResp : List Filter → Except AwsErr (Option DescribeAddressesOutput)
  allocateResp : Nat → AllocateAddressInput → Except AwsErr AllocateAddressOutput
  disassociateResp : Nat → Option String → Except AwsErr Unit
  releaseResp : Nat → Option String → Except AwsErr Unit
  describePoolsResp : List (Option String) → Except AwsErr DescribePublicIpv4PoolsOutput

/-- The EIP `Service`: scope data (cluster name, additional tags, VPC
spec) plus the EC2 client. -/
structure Service where
  name : String
  additionalTags : List (String × String)
  vpc : VPCSpec
  client : EC2Client

/-- Issue a DescribeAddresses call: record the event, return the
client's response. -/
def Service.callDescribeAddresses (s : Service) (st : CallState) (filters : List Filter) :
    CallState × Except AwsErr (Option DescribeAddressesOutput) :=
  ({ st with trace := st.trace ++ [Event.describeAddressesCall filters] },
    s.client.describeAddressesResp filters)

/-- Issue an AllocateAddress call. -/
def Service.callAllocate (s : Service) (st : CallState) (input : AllocateAddressInput) :
    CallState × Except AwsErr AllocateAddressOutput :=
  ({ st with trace := st.trace ++ [Event.allocateCall input], nAllocate := st.nAllocate + 1 },
    s.client.allocateResp st.nAllocate input)

/-- Issue a DisassociateAddress call. -/
def Service.callDisassociate (s : Service) (st : CallState) (associationId : Option String) :
    CallState × Except AwsErr Unit :=
  ({ st with
      trace := st.trace ++ [Event.disassociateCall associationId]
      nDisassociate := st.nDisassociate + 1 },
    s.client.disassociateResp st.nDisassociate associationId)

/-- Issue a ReleaseAddress call. -/
def Service.callRelease (s : Service) (st : CallState) (allocationId : Option String) :
    CallState × Except AwsErr Unit :=
  ({ st with
      trace := st.trace ++ [Event.releaseCall allocationId]
      nRelease := st.nRelease + 1 },
    s.client.releaseResp st.nRelease allocationId)

/-- Issue a DescribePublicIpv4Pools call. -/
def Service.callDescribePools (s : Service) (st : CallState) (poolIds : List (Option String)) :
    CallState × Except AwsErr DescribePublicIpv4PoolsOutput :=
  ({ st with trace := st.trace ++ [Event.describePoolsCall poolIds] },
    s.client.describePoolsResp poolIds)

/-- Modelled from the spec: the external retrying waiter
`wait.WaitForWithRetryable` with the backoff from `wait.NewBackoff`
(§6 `retry(backoffPolicy, operation, retryableErrorCodes...)`, §5
"bounded number of attempts before surfacing a terminal error"; the
`wait` package is not under the repository sources).  `steps` is the
bounded attempt budget supplied by the backoff schedule.  A condition
result `(true, nil)` is success; `(_, err)` with a retryable code
consumes an attempt and is surfaced if the budget runs out; a
non-retryable error is terminal immediately; `(false, nil)` consumes
an attempt. -/
def waitLoop (steps : Nat) (st : CallState)
    (cond : CallState → CallState × Bool × Option AwsErr)
    (retryableErrors : List String) (lastErr : Option AwsErr) :
    CallState × Option AwsErr :=
  match steps with
  | 0 => (st, some (lastErr.getD waiterTimeout))
  | Nat.succ n =>
    match cond st with
    | (st', done, Option.none) =>
      if done then (st', Option.none)
      else waitLoop n st' cond retryableErrors lastErr
    | (st', _, some e) =>
      if retryableErrors.contains e.code then
        waitLoop n st' cond retryableErrors (some e)
      else (st', some e)

/-- `wait.WaitForWithRetryable(wait.NewBackoff(), cond, retryableErrors...)`:
run the condition under the bounded retry budget.  `Option.none` as the
result means success. -/
def WaitForWithRetryable (steps : Nat) (st : CallState)
    (cond : CallState → CallState × Bool × Option AwsErr)
    (retryableErrors : List String) : CallState × Option AwsErr :=
  waitLoop steps st cond retryableErrors Option.none

/-- `getEIPTagParams` (eips.go:186-196): the tag build params of an EIP. -/
def Service.getEIPTagParams (s : Service) (role : String) : BuildParams :=
  { clusterName := s.name
  , lifecycle := resourceLifecycleOwned
  , name := some (s.name ++ "-eip-" ++ role)
  , role := some role
  , additional := s.additionalTags }

/-- `publicIpv4PoolHasFreeIPs` (eips.go:199-215): check whether the
configured BYO pool has at least `want` available addresses.  Note the
exhausted case (`freeIPs < want`) returns an error, not `(false, nil)`. -/
def Service.publicIpv4PoolHasFreeIPs (s : Service) (st : CallState) (want : Int) :
    CallState × Except GoErr Bool :=
  match s.callDescribePools st [s.vpc.publicIpv4Pool] with
  | (st', .error e) =>
    (st', .error (.wrapped "failed to describe Public IPv4 Pool" e))
  | (st', .ok pools) =>
    match pools.publicIpv4Pools with
    | [pool] =>
      let freeIPs := pool.totalAvailableAddressCount.getD 0
      if freeIPs < want then
        (st', .error (.message ("the pool does not have requested size. want " ++
          toString want ++ ", got " ++ toString freeIPs)))
      else
        (st', .ok true)
    | other =>
      (st', .error (.message ("unexpected number of Public IPv4 Pools. want 1, got " ++
        toString other.length)))

/-- `setByoPublicIpv4` (eips.go:61-88): when a BYO public IPv4 pool is
configured, check its capacity and set the pool on the allocate input;
on a capacity-check error fail; when the pool reports no free IPs and
the fallback order is `none`, fail; otherwise leave the input on the
provider default pool. -/
def Service.setByoPublicIpv4 (s : Service) (st : CallState) (alloc : AllocateAddressInput) :
    CallState × Except GoErr AllocateAddressInput :=
  match s.vpc.publicIpv4Pool with
  | Option.none => (st, .ok alloc)
  | some _ =>
    match s.publicIpv4PoolHasFreeIPs st 1 with
    | (st', .error _) =>
      (st', .error (.message "failed to allocate Elastic IP from PublicIpv4 Pool"))
    | (st', .ok ok) =>
      if ok then
        (st', .ok { alloc with publicIpv4Pool := s.vpc.publicIpv4Pool })
      else
        match s.vpc.publicIpv4PoolFallBackOrder with
        | some fo =>
          if fo = PublicIpv4PoolFallbackOrder.fallbackNone then
            (st', .error (.message
              ("failed to allocate Elastic IP from PublicIpv4 Pool and use fallback with strategy "
                ++ fo.render)))
          else (st', .ok alloc)
        | Option.none => (st', .ok alloc)

/-- The allocate input as built at the top of `allocateAddress`
(eips.go:36-42): `vpc` domain and the tag specification from
`getEIPTagParams`, before the BYO-pool pre-flight. -/
def allocInputBase (s : Service) (role : String) : AllocateAddressInput :=
  let tagSpecifications :=
    BuildParamsToTagSpecification resourceTypeElasticIp (s.getEIPTagParams role)
  { domain := some "vpc"
  , tagSpecifications := [tagSpecifications]
  , publicIpv4Pool := Option.none }

/-- `allocateAddress` (eips.go:35-56): build the allocate input with
the tag specification attached, run the BYO-pool pre-flight, then
issue the allocate request. -/
def Service.allocateAddress (s : Service) (st : CallState) (role : String) :
    CallState × Except GoErr String :=
  match s.setByoPublicIpv4 st (allocInputBase s role) with
  | (st', .error e) => (st', .error e)
  | (st', .ok allocInput) =>
    match s.callAllocate st' allocInput with
    | (st'', .error e) => (st'', .error (.wrapped "failed to allocate Elastic IP" e))
    | (st'', .ok out) => (st'', .ok (out.allocationId.getD ""))

/-- The filter list built by `describeAddresses` (eips.go:91-94):
always the cluster filter; the provider-role filter appended only for
a non-empty role. -/
def describeAddressesFilters (s : Service) (role : String) : List Filter :=
  let x := [Filter.cluster s.name]
  if role ≠ "" then x ++ [Filter.providerRole role] else x

/-- `describeAddresses` (eips.go:90-99). -/
def Service.describeAddresses (s : Service) (st : CallState) (role : String) :
    CallState × Except AwsErr (Option DescribeAddressesOutput) :=
  s.callDescribeAddresses st (describeAddressesFilters s role)

/-- The condition closure of `disassociateAddress` (eips.go:102-113):
issue a disassociate call; an error whose code is not
`AssociationIDNotFound` is reported to the waiter; `AssociationIDNotFound`
and success both complete the wait. -/
def Service.disassociateAttempt (s : Service) (ip : Address) (st : CallState) :
    CallState × Bool × Option AwsErr :=
  match s.callDisassociate st ip.associationId with
  | (st', .error e) =>
    if e.code ≠ associationIDNotFound then (st', false, some e)
    else (st', true, Option.none)
  | (st', .ok _) => (st', true, Option.none)

/-- `disassociateAddress` (eips.go:101-119): the waiter-wrapped
disassociate, retryable on `AuthFailure`. -/
def Service.disassociateAddress (s : Service) (steps : Nat) (st : CallState) (ip : Address) :
    CallState × Except GoErr Unit :=
  match WaitForWithRetryable steps st (s.disassociateAttempt ip) [authFailure] with
  | (st', some e) => (st', .error (.wrapped "failed to disassociate Elastic IP" e))
  | (st', Option.none) => (st', .ok ())

/-- The condition closure of the release waiter (eips.go:132-142):
issue a release call; on error, when an association id is present,
attempt the waiter-wrapped disassociation inline, then report the
release error to the waiter either way. -/
def Service.releaseAttempt (s : Service) (steps : Nat) (ip : Address) (st : CallState) :
    CallState × Bool × Option AwsErr :=
  match s.callRelease st ip.allocationId with
  | (st', .error e) =>
    match ip.associationId with
    | some _ =>
      match s.disassociateAddress steps st' ip with
      | (st'', .error _) => (st'', false, some e)
      | (st'', .ok _) => (st'', false, some e)
    | Option.none => (st', false, some e)
  | (st', .ok _) => (st', true, Option.none)

/-- The release waiter of `releaseAddress` (eips.go:132-146),
retryable on `AuthFailure` and `InUseIPAddress`. -/
def Service.releaseWait (s : Service) (steps : Nat) (st : CallState) (ip : Address) :
    CallState × Except GoErr Unit :=
  match WaitForWithRetryable steps st (s.releaseAttempt steps ip)
      [authFailure, inUseIPAddress] with
  | (st', some e) => (st', .error (.wrapped "failed to release ElasticIP" e))
  | (st', Option.none) => (st', .ok ())

/-- `releaseAddress` (eips.go:122-150): when an association id is
present, first issue one direct disassociate call — any error there
fails the whole call; then run the release waiter. -/
def Service.releaseAddress (s : Service) (steps : Nat) (st : CallState) (ip : Address) :
    CallState × Except GoErr Unit :=
  let st := { st with trace := st.trace ++ [Event.enterReleaseAddress ip] }
  match ip.associationId with
  | some assocId =>
    match s.callDisassociate st ip.associationId with
    | (st', .error _) =>
      (st', .error (.message ("failed to disassociate Elastic IP " ++ ip.publicIp.getD "" ++
        " with allocation ID " ++ ip.allocationId.getD "" ++
        ": Still associated with association ID " ++ assocId)))
    | (st', .ok _) => s.releaseWait steps st' ip
  | Option.none => s.releaseWait steps st ip

/-- The `for` loop of `releaseAddresses` (eips.go:163-168): release
each described address in list order, aborting on the first error. -/
def Service.releaseLoop (s : Service) (steps : Nat) (st : CallState) (addrs : List Address) :
    CallState × Except GoErr Unit :=
  match addrs with
  | [] => (st, .ok ())
  | a :: rest =>
    match s.releaseAddress steps st a with
    | (st', .error e) => (st', .error e)
    | (st', .ok _) => s.releaseLoop steps st' rest

/-- `releaseAddresses` (eips.go:153-170): describe by filter, treat a
nil output as success, then release each address in order. -/
def Service.releaseAddresses (s : Service) (steps : Nat) (st : CallState)
    (filters : List Filter) : CallState × Except GoErr Unit :=
  match s.callDescribeAddresses st filters with
  | (st', .error e) => (st', .error (.wrapped "failed to describe elastic IPs" e))
  | (st', .ok Option.none) => (st', .ok ())
  | (st', .ok (some out)) => s.releaseLoop steps st' out.addresses

/-- `ReleaseAddresses` (eips.go:173-175): whole-cluster bulk release. -/
def Service.ReleaseAddresses (s : Service) (steps : Nat) (st : CallState) :
    CallState × Except GoErr Unit :=
  s.releaseAddresses steps st [Filter.cluster s.name]

/-- `ReleaseAddressByRole` (eips.go:178-183): cluster+role bulk
release; the role filter is appended unconditionally. -/
def Service.ReleaseAddressByRole (s : Service) (steps : Nat) (st : CallState) (role : String) :
    CallState × Except GoErr Unit :=
  s.releaseAddresses steps st ([Filter.cluster s.name] ++ [Filter.providerRole role])

/-- The reuse collection of `GetOrAllocateAddresses` (eips.go:226-230):
the allocation ids of the described addresses without an association,
in list order. -/
def unassociatedIds (out : DescribeAddressesOutput) : List String :=
  (out.addresses.filter fun a => a.associationId.isNone).map fun a => a.allocationId.getD ""

/-- The `for len(eips) < num` loop of `GetOrAllocateAddresses`
(eips.go:233-239), with an explicit structural fuel so that runs
compute by kernel reduction.  Each iteration appends exactly one id,
so `num - eips.length` fuel (supplied by `Service.allocateLoop`) makes
the fuel-out case unreachable and the guard exact. -/
def Service.allocateLoopFuel (s : Service) (role : String) (num : Nat) :
    Nat → CallState → List String → CallState × Except GoErr (List String)
  | 0, st, eips => (st, .ok eips)
  | Nat.succ fuel, st, eips =>
    if eips.length < num then
      match s.allocateAddress st role with
      | (st', .error e) => (st', .error e)
      | (st', .ok ip) => s.allocateLoopFuel role num fuel st' (eips ++ [ip])
    else (st, .ok eips)

/-- The allocation top-up loop entered with the reused ids. -/
def Service.allocateLoop (s : Service) (st : CallState) (role : String)
    (eips : List String) (num : Nat) : CallState × Except GoErr (List String) :=
  s.allocateLoopFuel role num (num - eips.length) st eips

/-- `GetOrAllocateAddresses` (eips.go:218-242).  A nil describe output
would make the Go code dereference a nil pointer at `out.Addresses`;
that case is modelled as the distinguished `nilDeref` error. -/
def Service.GetOrAllocateAddresses (s : Service) (st : CallState) (num : Nat) (role : String) :
    CallState × Except GoErr (List String) :=
  match s.describeAddresses st role with
  | (st', .error e) => (st', .error (.wrapped "failed to query addresses" e))
  | (st', .ok Option.none) => (st', .error GoErr.nilDeref)
  | (st', .ok (some out)) => s.allocateLoop st' role (unassociatedIds out) num

/-- The sequence of single-address releaser invocations recorded in a
trace, in order. -/
def enteredReleases (tr : List Event) : List Address :=
  tr.filterMap fun e =>
    match e with
    | Event.enterReleaseAddress ip => some ip
    | _ => Option.none

/-! ## Sample services used by concrete evaluations and witnesses -/

/-- A client whose every operation succeeds: empty directory, fresh
allocation ids `eipalloc-new-<n>`, a pool with 10 free addresses. -/
def okClient : EC2Client :=
  { describeAddressesResp := fun _ => .ok (some ⟨[]⟩)
  , allocateResp := fun n _ => .ok ⟨some ("eipalloc-new-" ++ toString n)⟩
  , disassociateResp := fun _ _ => .ok ()
  , releaseResp := fun _ _ => .ok ()
  , describePoolsResp := fun _ => .ok ⟨[⟨some 10⟩]⟩ }

/-- An unassociated address of cluster-a with role api. -/
def addrA : Address :=
  ⟨some "eipalloc-a", some "100.0.0.1", Option.none, some "cluster-a", some "api"⟩

/-- A second unassociated address of cluster-a with role api. -/
def addrB : Address :=
  ⟨some "eipalloc-b", some "100.0.0.2", Option.none, some "cluster-a", some "api"⟩

/-- An associated address of cluster-a with role api. -/
def addrAssoc : Address :=
  ⟨some "eipalloc-c", some "100.0.0.3", some "eipassoc-1", some "cluster-a", some "api"⟩

/-- BYO pool configured with 0 available addresses; fallback order is
`amazon-pool` (fallback allowed). -/
def svcPoolExhaustedFallback : Service :=
  { name := "cluster-a"
  , additionalTags := []
  , vpc := ⟨some "ipv4pool-ec2-0", some PublicIpv4PoolFallbackOrder.amazonPool⟩
  , client := { okClient with describePoolsResp := fun _ => .ok ⟨[⟨some 0⟩]⟩ } }

/-- BYO pool configured with 0 available addresses; fallback order `none`. -/
def svcPoolExhaustedNone : Service :=
  { name := "cluster-a"
  , additionalTags := []
  , vpc := ⟨some "ipv4pool-ec2-1", some PublicIpv4PoolFallbackOrder.fallbackNone⟩
  , client := { okClient with describePoolsResp := fun _ => .ok ⟨[⟨some 0⟩]⟩ } }

/-- Directory holding two unassociated addresses for the role. -/
def svcTwoUnassociated : Service :=
  { name := "cluster-a"
  , additionalTags := []
  , vpc := ⟨Option.none, Option.none⟩
  , client := { okClient with describeAddressesResp := fun _ => .ok (some ⟨[addrA, addrB]⟩) } }

/-- Every disassociate call reports `AssociationIDNotFound`. -/
def svcNotFoundOnDisassociate : Service :=
  { name := "cluster-a"
  , additionalTags := []
  , vpc := ⟨Option.none, Option.none⟩
  , client := { okClient with
      disassociateResp := fun _ _ => .error ⟨associationIDNotFound, "assoc gone"⟩ } }

/-- An unassociated address of cluster-a, role lb. -/
def addrX : Address :=
  ⟨some "eipalloc-x", some "100.0.1.1", Option.none, some "cluster-a", some "lb"⟩

/-- A second unassociated address of cluster-a, role lb. -/
def addrY : Address :=
  ⟨some "eipalloc-y", some "100.0.1.2", Option.none, some "cluster-a", some "lb"⟩

/-- A third unassociated address of cluster-a, role lb. -/
def addrZ : Address :=
  ⟨some "eipalloc-z", some "100.0.1.3", Option.none, some "cluster-a", some "lb"⟩

/-- Three matched addresses; the first release call succeeds, every
later one fails with a non-retryable error. -/
def svcSecondReleaseFails : Service :=
  { name := "cluster-a"
  , additionalTags := []
  , vpc := ⟨Option.none, Option.none⟩
  , client := { okClient with
      describeAddressesResp := fun _ => .ok (some ⟨[addrX, addrY, addrZ]⟩)
    , releaseResp := fun n _ =>
        if n == 0 then .ok () else .error ⟨"UnauthorizedOperation", "denied"⟩ } }

/-- Every release call reports the address as still in use; every
disassociate call succeeds. -/
def svcInUse : Service :=
  { name := "cluster-a"
  , additionalTags := []
  , vpc := ⟨Option.none, Option.none⟩
  , client := { okClient with
      releaseResp := fun _ _ => .error ⟨inUseIPAddress, "still associated"⟩ } }

/-- Every release call fails with a code that is neither
`AuthFailure` nor `InUseIPAddress`. -/
def svcTerminalRelease : Service :=
  { name := "cluster-a"
  , additionalTags := []
  , vpc := ⟨Option.none, Option.none⟩
  , client := { okClient with
      releaseResp := fun _ _ => .error ⟨"InvalidAllocationID.NotFound", "gone"⟩ } }

/-! ## Theorems -/

/-- Claim C1 (code_bug evaluation): with a BYO public IPv4 pool
configured, 0 available addresses in the pool and fallback order
`amazon-pool` (fallback allowed), `allocateAddress` fails with the
generic BYO-pool error and never issues the allocate request, because
`publicIpv4PoolHasFreeIPs` reports exhaustion as an error and the
fallback branch of `setByoPublicIpv4` is unreachable — contradicting
both the claim and the function's own doc comment ("otherwise fallback
to Amazon pool when explicty failure isn't defined"). -/
theorem allocateAddress_pool_exhausted_fallback_allowed_fails :
    (svcPoolExhaustedFallback.allocateAddress CallState.init "api").2 =
      Except.error (GoErr.message "failed to allocate Elastic IP from PublicIpv4 Pool") ∧
    (svcPoolExhaustedFallback.allocateAddress CallState.init "api").1.nAllocate = 0 :=
  ⟨rfl, rfl⟩

/-- Claim C2 (counterexample): with `count = 1` and two unassociated
addresses in the directory, `GetOrAllocateAddresses` returns two
allocation identities, not exactly one. -/
theorem getOrAllocateAddresses_exact_count_counterexample :
    (svcTwoUnassociated.GetOrAllocateAddresses CallState.init 1 "api").2 =
      Except.ok ["eipalloc-a", "eipalloc-b"] ∧
    (["eipalloc-a", "eipalloc-b"] : List String).length ≠ 1 :=
  ⟨rfl, by decide⟩

/-- Claim C3 (counterexample): for an address whose `associationId` is
present, when the provider answers the disassociate phase of
`releaseAddress` with `AssociationIDNotFound`, the call fails and the
release phase is never reached (zero release calls) — the direct
disassociate phase does not treat "association not found" as success. -/
theorem releaseAddress_not_found_counterexample :
    isErr (svcNotFoundOnDisassociate.releaseAddress 5 CallState.init addrAssoc).2 = true ∧
    (svcNotFoundOnDisassociate.releaseAddress 5 CallState.init addrAssoc).1.nRelease = 0 :=
  ⟨rfl, rfl⟩

/-- Claim C5: with a BYO public IPv4 pool configured, fewer than one
available address, and fallback order `none`, allocation fails with an
error and no allocate request is ever issued (the provider default
pool is never used). -/
theorem allocateAddress_pool_exhausted_fallback_none_fails
    (s : Service) (st : CallState) (role : String) (p : String) (avail : Int)
    (hpool : s.vpc.publicIpv4Pool = some p)
    (_hfb : s.vpc.publicIpv4PoolFallBackOrder = some PublicIpv4PoolFallbackOrder.fallbackNone)
    (hresp : s.client.describePoolsResp [some p] = .ok ⟨[⟨some avail⟩]⟩)
    (hexhausted : avail < 1) :
    isErr (s.allocateAddress st role).2 = true ∧
    (s.allocateAddress st role).1.nAllocate = st.nAllocate := by
  simp only [Service.allocateAddress, Service.setByoPublicIpv4,
    Service.publicIpv4PoolHasFreeIPs, Service.callDescribePools, hpool, hresp,
    Option.getD_some, hexhausted, if_true, isErr]
  constructor <;> trivial

/-- Witness for C5 at a concrete pool-exhausted configuration. -/
theorem allocateAddress_pool_exhausted_fallback_none_fails_witness :
    isErr (svcPoolExhaustedNone.allocateAddress CallState.init "api").2 = true ∧
    (svcPoolExhaustedNone.allocateAddress CallState.init "api").1.nAllocate =
      CallState.init.nAllocate :=
  allocateAddress_pool_exhausted_fallback_none_fails svcPoolExhaustedNone CallState.init
    "api" "ipv4pool-ec2-1" 0 rfl rfl rfl (by decide)

/-- Any successful run of the allocation top-up loop extends the reused
ids and reaches length `max num eips.length`, provided the fuel is the
exact `num - eips.length` supplied by `Service.allocateLoop`. -/
theorem allocateLoopFuel_ok_spec (s : Service) (role : String) (num : Nat) :
    ∀ (fuel : Nat) (st : CallState) (eips : List String) (st' : CallState) (l : List String),
      fuel = num - eips.length →
      s.allocateLoopFuel role num fuel st eips = (st', .ok l) →
      (∃ t, l = eips ++ t) ∧ l.length = max num eips.length := by
  intro fuel
  induction fuel with
  | zero =>
    intro st eips st' l hfuel hrun
    simp only [Service.allocateLoopFuel] at hrun
    obtain ⟨rfl, rfl⟩ : st = st' ∧ eips = l := by
      exact ⟨congrArg Prod.fst hrun, by simpa using congrArg Prod.snd hrun⟩
    refine ⟨⟨[], by simp⟩, ?_⟩
    have : num ≤ eips.length := by omega
    omega
  | succ fuel ih =>
    intro st eips st' l hfuel hrun
    have hlt : eips.length < num := by omega
    simp only [Service.allocateLoopFuel, if_pos hlt] at hrun
    rcases hra : s.allocateAddress st role with ⟨st1, r⟩
    rw [hra] at hrun
    cases r with
    | error e => simp at hrun
    | ok ip =>
      simp only at hrun
      have hfuel' : fuel = num - (eips ++ [ip]).length := by
        simp only [List.length_append, List.length_cons, List.length_nil]
        omega
      obtain ⟨⟨t, ht⟩, hlen⟩ := ih st1 (eips ++ [ip]) st' l hfuel' hrun
      refine ⟨⟨ip :: t, by simp [ht]⟩, ?_⟩
      have h1 : eips.length + 1 ≤ num := hlt
      simp only [List.length_append, List.length_cons, List.length_nil] at hlen
      omega

/-- Claim C2 (amended): on success, `GetOrAllocateAddresses` returns
the identities of all addresses unassociated at the directory read,
topped up with fresh allocations only when fewer than `count` existed:
the result length is `max count k` (`k` = unassociated at the read),
which exceeds `count` whenever `k > count`; when `k ≥ count` the
result is exactly the `k` reused identities and no allocate request is
issued. -/
theorem getOrAllocateAddresses_returns_all_unassociated
    (s : Service) (st : CallState) (num : Nat) (role : String) (out : DescribeAddressesOutput)
    (hdesc : s.client.describeAddressesResp (describeAddressesFilters s role) =
      .ok (some out)) :
    (∀ (st' : CallState) (l : List String),
      s.GetOrAllocateAddresses st num role = (st', .ok l) →
      (∃ t, l = unassociatedIds out ++ t) ∧
      l.length = max num (unassociatedIds out).length) ∧
    (num ≤ (unassociatedIds out).length →
      s.GetOrAllocateAddresses st num role =
        ({ st with trace := st.trace ++
            [Event.describeAddressesCall (describeAddressesFilters s role)] },
          .ok (unassociatedIds out))) := by
  constructor
  · intro st' l hrun
    simp only [Service.GetOrAllocateAddresses, Service.describeAddresses,
      Service.callDescribeAddresses, hdesc, Service.allocateLoop] at hrun
    exact allocateLoopFuel_ok_spec s role num (num - (unassociatedIds out).length) _
      (unassociatedIds out) st' l rfl hrun
  · intro hge
    simp only [Service.GetOrAllocateAddresses, Service.describeAddresses,
      Service.callDescribeAddresses, hdesc, Service.allocateLoop]
    have h0 : num - (unassociatedIds out).length = 0 := by omega
    rw [h0]
    rfl

/-- Witness for the amended C2: with `count = 1` and two unassociated
addresses at the read, the run returns both identities untouched. -/
theorem getOrAllocateAddresses_returns_all_unassociated_witness :
    svcTwoUnassociated.GetOrAllocateAddresses CallState.init 1 "api" =
      ({ CallState.init with trace := CallState.init.trace ++
          [Event.describeAddressesCall (describeAddressesFilters svcTwoUnassociated "api")] },
        Except.ok (unassociatedIds ⟨[addrA, addrB]⟩)) :=
  (getOrAllocateAddresses_returns_all_unassociated svcTwoUnassociated CallState.init 1 "api"
    ⟨[addrA, addrB]⟩ rfl).2 (by decide)

/-- Claim C10: when the describe query of a bulk release succeeds with
a nil output or an empty address list, both `ReleaseAddresses` and
`ReleaseAddressByRole` return success without issuing any disassociate
or release call. -/
theorem bulk_release_empty_noop
    (s : Service) (steps : Nat) (st : CallState) (role : String)
    (h1 : s.client.describeAddressesResp [Filter.cluster s.name] = .ok Option.none ∨
      s.client.describeAddressesResp [Filter.cluster s.name] = .ok (some ⟨[]⟩))
    (h2 : s.client.describeAddressesResp
        ([Filter.cluster s.name] ++ [Filter.providerRole role]) = .ok Option.none ∨
      s.client.describeAddressesResp
        ([Filter.cluster s.name] ++ [Filter.providerRole role]) = .ok (some ⟨[]⟩)) :
    ((s.ReleaseAddresses steps st).2 = .ok () ∧
      (s.ReleaseAddresses steps st).1.nDisassociate = st.nDisassociate ∧
      (s.ReleaseAddresses steps st).1.nRelease = st.nRelease) ∧
    ((s.ReleaseAddressByRole steps st role).2 = .ok () ∧
      (s.ReleaseAddressByRole steps st role).1.nDisassociate = st.nDisassociate ∧
      (s.ReleaseAddressByRole steps st role).1.nRelease = st.nRelease) := by
  constructor
  · rcases h1 with h | h <;>
      simp [Service.ReleaseAddresses, Service.releaseAddresses,
        Service.callDescribeAddresses, Service.releaseLoop, h]
  · rcases h2 with h | h <;>
      simp only [List.cons_append, List.nil_append] at h <;>
      simp [Service.ReleaseAddressByRole, Service.releaseAddresses,
        Service.callDescribeAddresses, Service.releaseLoop, h]

/-- Witness for C10 on a service with an empty directory. -/
theorem bulk_release_empty_noop_witness :
    (((Service.mk "cluster-a" [] ⟨Option.none, Option.none⟩ okClient).ReleaseAddresses 3
        CallState.init).2 = .ok () ∧
      ((Service.mk "cluster-a" [] ⟨Option.none, Option.none⟩ okClient).ReleaseAddresses 3
        CallState.init).1.nDisassociate = CallState.init.nDisassociate ∧
      ((Service.mk "cluster-a" [] ⟨Option.none, Option.none⟩ okClient).ReleaseAddresses 3
        CallState.init).1.nRelease = CallState.init.nRelease) ∧
    (((Service.mk "cluster-a" [] ⟨Option.none, Option.none⟩ okClient).ReleaseAddressByRole 3
        CallState.init "api").2 = .ok () ∧
      ((Service.mk "cluster-a" [] ⟨Option.none, Option.none⟩ okClient).ReleaseAddressByRole 3
        CallState.init "api").1.nDisassociate = CallState.init.nDisassociate ∧
      ((Service.mk "cluster-a" [] ⟨Option.none, Option.none⟩ okClient).ReleaseAddressByRole 3
        CallState.init "api").1.nRelease = CallState.init.nRelease) :=
  bulk_release_empty_noop (Service.mk "cluster-a" [] ⟨Option.none, Option.none⟩ okClient) 3
    CallState.init "api" (Or.inr rfl) (Or.inr rfl)

/-- Claim C9: `ReleaseAddressByRole` appends the provider-role filter
unconditionally, so for the empty role the query filter is
`[cluster, role=""]`, unlike `describeAddresses` which drops the role
filter for an empty role; under tag-equality filter matching, the
empty-role filter set excludes every address whose role tag is
non-empty, while the bare cluster filter matches any cluster address. -/
theorem releaseAddressByRole_empty_role_filter
    (s : Service) (steps : Nat) (st : CallState) (a : Address) (r : String)
    (hcl : a.clusterTag = some s.name)
    (hrole : a.roleTag = some r) (hne : r ≠ "") :
    (s.ReleaseAddressByRole steps st "" =
      s.releaseAddresses steps st [Filter.cluster s.name, Filter.providerRole ""]) ∧
    describeAddressesFilters s "" = [Filter.cluster s.name] ∧
    matchesAll [Filter.cluster s.name, Filter.providerRole ""] a = false ∧
    matchesAll [Filter.cluster s.name] a = true := by
  refine ⟨rfl, by simp [describeAddressesFilters], ?_, ?_⟩
  · simp [matchesAll, Filter.matchesAddr, hrole, hcl, hne]
  · simp [matchesAll, Filter.matchesAddr, hcl]

/-- Witness for C9 at a concrete cluster address with role `api`. -/
theorem releaseAddressByRole_empty_role_filter_witness :
    (svcTwoUnassociated.ReleaseAddressByRole 3 CallState.init "" =
      svcTwoUnassociated.releaseAddresses 3 CallState.init
        [Filter.cluster svcTwoUnassociated.name, Filter.providerRole ""]) ∧
    describeAddressesFilters svcTwoUnassociated "" = [Filter.cluster svcTwoUnassociated.name] ∧
    matchesAll [Filter.cluster svcTwoUnassociated.name, Filter.providerRole ""] addrA = false ∧
    matchesAll [Filter.cluster svcTwoUnassociated.name] addrA = true :=
  releaseAddressByRole_empty_role_filter svcTwoUnassociated 3 CallState.init addrA "api"
    rfl rfl (by decide)

/-- When no BYO pool is configured and the provider grants every
allocation with id `fresh n` on the n-th allocate call,
`allocateAddress` performs exactly one allocate call and returns the
fresh id. -/
theorem allocateAddress_no_pool_fresh (s : Service) (role : String) (fresh : Nat → String)
    (hpool : s.vpc.publicIpv4Pool = Option.none)
    (halloc : ∀ n input, s.client.allocateResp n input = .ok ⟨some (fresh n)⟩)
    (st : CallState) :
    s.allocateAddress st role =
      (⟨st.trace ++ [Event.allocateCall (allocInputBase s role)],
        st.nAllocate + 1, st.nDisassociate, st.nRelease⟩,
        .ok (fresh st.nAllocate)) := by
  simp only [Service.allocateAddress, Service.setByoPublicIpv4, hpool,
    Service.callAllocate, halloc, Option.getD_some, allocInputBase]

/-- Fuel-indexed computation of the top-up loop when every allocation
succeeds with `fresh` ids: exactly `fuel` allocate calls, appending
`fresh` ids in attempt order. -/
theorem allocateLoopFuel_fresh_spec (s : Service) (role : String) (num : Nat)
    (fresh : Nat → String)
    (hpool : s.vpc.publicIpv4Pool = Option.none)
    (halloc : ∀ n input, s.client.allocateResp n input = .ok ⟨some (fresh n)⟩) :
    ∀ (fuel : Nat) (st : CallState) (eips : List String),
      fuel = num - eips.length →
      s.allocateLoopFuel role num fuel st eips =
        (⟨st.trace ++ List.replicate fuel (Event.allocateCall (allocInputBase s role)),
          st.nAllocate + fuel, st.nDisassociate, st.nRelease⟩,
          .ok (eips ++ (List.range' st.nAllocate fuel).map fresh)) := by
  intro fuel
  induction fuel with
  | zero =>
    intro st eips _hfuel
    simp [Service.allocateLoopFuel]
  | succ fuel ih =>
    intro st eips hfuel
    have hlt : eips.length < num := by omega
    rw [Service.allocateLoopFuel, if_pos hlt,
      allocateAddress_no_pool_fresh s role fresh hpool halloc st]
    dsimp only
    have hfuel' : fuel = num - (eips ++ [fresh st.nAllocate]).length := by
      simp only [List.length_append, List.length_cons, List.length_nil]
      omega
    rw [ih _ (eips ++ [fresh st.nAllocate]) hfuel']
    simp [List.range'_succ, List.replicate_succ]
    omega

/-- Claim C4: when `k < count` unassociated addresses exist at the
directory read and every allocation succeeds, `GetOrAllocateAddresses`
issues exactly `count - k` allocate requests and returns the `k`
pre-existing identities followed by the `count - k` freshly minted
ones. -/
theorem getOrAllocateAddresses_topup_exact
    (s : Service) (st : CallState) (num : Nat) (role : String)
    (out : DescribeAddressesOutput) (fresh : Nat → String)
    (hpool : s.vpc.publicIpv4Pool = Option.none)
    (hdesc : s.client.describeAddressesResp (describeAddressesFilters s role) =
      .ok (some out))
    (halloc : ∀ n input, s.client.allocateResp n input = .ok ⟨some (fresh n)⟩)
    (_hk : (unassociatedIds out).length < num) :
    (s.GetOrAllocateAddresses st num role).2 =
      .ok (unassociatedIds out ++
        (List.range' st.nAllocate (num - (unassociatedIds out).length)).map fresh) ∧
    (s.GetOrAllocateAddresses st num role).1.nAllocate =
      st.nAllocate + (num - (unassociatedIds out).length) := by
  simp only [Service.GetOrAllocateAddresses, Service.describeAddresses,
    Service.callDescribeAddresses, hdesc, Service.allocateLoop]
  rw [allocateLoopFuel_fresh_spec s role num fresh hpool halloc
    (num - (unassociatedIds out).length) _ (unassociatedIds out) rfl]
  exact ⟨rfl, rfl⟩

/-- Witness for C4: two reusable addresses, `count = 3`, one fresh
allocation minted. -/
theorem getOrAllocateAddresses_topup_exact_witness :
    (svcTwoUnassociated.GetOrAllocateAddresses CallState.init 3 "api").2 =
      .ok (unassociatedIds ⟨[addrA, addrB]⟩ ++
        (List.range' CallState.init.nAllocate
          (3 - (unassociatedIds ⟨[addrA, addrB]⟩).length)).map
            (fun n => "eipalloc-new-" ++ toString n)) ∧
    (svcTwoUnassociated.GetOrAllocateAddresses CallState.init 3 "api").1.nAllocate =
      CallState.init.nAllocate + (3 - (unassociatedIds ⟨[addrA, addrB]⟩).length) :=
  getOrAllocateAddresses_topup_exact svcTwoUnassociated CallState.init 3 "api"
    ⟨[addrA, addrB]⟩ (fun n => "eipalloc-new-" ++ toString n) rfl rfl
    (fun _ _ => rfl) (by decide)

/-- Claim C3 (amended): the disassociate phase of `releaseAddress` is
one direct provider call whose any failure — including "association
not found" — fails the whole call before any release attempt; the
waiter-wrapped `disassociateAddress`, which does treat
`AssociationIDNotFound` as success in a single call, is a separate
helper (invoked only inline from within the release retry). -/
theorem releaseAddress_disassociate_phase_amended :
    (∀ (s : Service) (steps : Nat) (st : CallState) (ip : Address) (aid : String) (e : AwsErr),
      ip.associationId = some aid →
      s.client.disassociateResp st.nDisassociate (some aid) = .error e →
      isErr (s.releaseAddress steps st ip).2 = true ∧
      (s.releaseAddress steps st ip).1.nRelease = st.nRelease) ∧
    (∀ (s : Service) (steps : Nat) (st : CallState) (ip : Address) (e : AwsErr),
      1 ≤ steps →
      s.client.disassociateResp st.nDisassociate ip.associationId = .error e →
      e.code = associationIDNotFound →
      (s.disassociateAddress steps st ip).2 = .ok () ∧
      (s.disassociateAddress steps st ip).1.nDisassociate = st.nDisassociate + 1) := by
  constructor
  · intro s steps st ip aid e hassoc hdis
    simp only [Service.releaseAddress, hassoc, Service.callDisassociate, hdis, isErr]
    constructor <;> trivial
  · intro s steps st ip e hsteps hdis hcode
    cases steps with
    | zero => omega
    | succ m =>
      simp only [Service.disassociateAddress, WaitForWithRetryable, waitLoop,
        Service.disassociateAttempt, Service.callDisassociate, hdis, hcode, ne_eq,
        not_true_eq_false, if_false, if_true]
      constructor <;> trivial

/-- Witness for the amended C3: with every disassociate answered by
`AssociationIDNotFound`, the release call fails before any release
attempt, while the waiter-wrapped helper succeeds in one call. -/
theorem releaseAddress_disassociate_phase_amended_witness :
    (isErr (svcNotFoundOnDisassociate.releaseAddress 5 CallState.init addrAssoc).2 = true ∧
      (svcNotFoundOnDisassociate.releaseAddress 5 CallState.init addrAssoc).1.nRelease =
        CallState.init.nRelease) ∧
    ((svcNotFoundOnDisassociate.disassociateAddress 5 CallState.init addrAssoc).2 = .ok () ∧
      (svcNotFoundOnDisassociate.disassociateAddress 5 CallState.init
        addrAssoc).1.nDisassociate = CallState.init.nDisassociate + 1) :=
  ⟨releaseAddress_disassociate_phase_amended.1 svcNotFoundOnDisassociate 5 CallState.init
      addrAssoc "eipassoc-1" ⟨associationIDNotFound, "assoc gone"⟩ rfl rfl,
    releaseAddress_disassociate_phase_amended.2 svcNotFoundOnDisassociate 5 CallState.init
      addrAssoc ⟨associationIDNotFound, "assoc gone"⟩ (by decide) rfl rfl⟩

/-- `enteredReleases` distributes over trace concatenation. -/
theorem enteredReleases_append (t1 t2 : List Event) :
    enteredReleases (t1 ++ t2) = enteredReleases t1 ++ enteredReleases t2 := by
  simp [enteredReleases, List.filterMap_append]

/-- A disassociate call records no releaser invocation. -/
theorem enteredReleases_callDisassociate (s : Service) (st : CallState) (x : Option String) :
    enteredReleases (s.callDisassociate st x).1.trace = enteredReleases st.trace := by
  simp [Service.callDisassociate, enteredReleases_append, enteredReleases]

/-- A release call records no releaser invocation. -/
theorem enteredReleases_callRelease (s : Service) (st : CallState) (x : Option String) :
    enteredReleases (s.callRelease st x).1.trace = enteredReleases st.trace := by
  simp [Service.callRelease, enteredReleases_append, enteredReleases]

/-- The waiter preserves the recorded releaser invocations whenever its
condition does. -/
theorem enteredReleases_waitLoop
    (cond : CallState → CallState × Bool × Option AwsErr)
    (hcond : ∀ st, enteredReleases (cond st).1.trace = enteredReleases st.trace) :
    ∀ (steps : Nat) (st : CallState) (retry : List String) (lastErr : Option AwsErr),
      enteredReleases (waitLoop steps st cond retry lastErr).1.trace =
        enteredReleases st.trace := by
  intro steps
  induction steps with
  | zero => intro st retry lastErr; simp [waitLoop]
  | succ n ih =>
    intro st retry lastErr
    rw [waitLoop]
    rcases hc : cond st with ⟨st1, done, err⟩
    have h1 : enteredReleases st1.trace = enteredReleases st.trace := by
      have := hcond st; rw [hc] at this; exact this
    cases err with
    | none =>
      cases done with
      | true => simpa using h1
      | false => simpa [ih] using h1
    | some e =>
      by_cases hr : retry.contains e.code = true
      · simp only [hr, if_true]
        rw [ih st1 retry (some e)]
        exact h1
      · simp only [Bool.not_eq_true] at hr
        simp only [hr, Bool.false_eq_true, if_false]
        exact h1

/-- The disassociate condition closure preserves recorded releaser
invocations. -/
theorem enteredReleases_disassociateAttempt (s : Service) (ip : Address) (st : CallState) :
    enteredReleases (s.disassociateAttempt ip st).1.trace = enteredReleases st.trace := by
  unfold Service.disassociateAttempt
  rcases hc : s.callDisassociate st ip.associationId with ⟨st1, r⟩
  have h1 : enteredReleases st1.trace = enteredReleases st.trace := by
    have := enteredReleases_callDisassociate s st ip.associationId
    rw [hc] at this; exact this
  cases r with
  | error e =>
    by_cases he : e.code ≠ associationIDNotFound <;> simp [he, h1]
  | ok u => simpa using h1

/-- The waiter-wrapped disassociation preserves recorded releaser
invocations. -/
theorem enteredReleases_disassociateAddress (s : Service) (steps : Nat) (st : CallState)
    (ip : Address) :
    enteredReleases (s.disassociateAddress steps st ip).1.trace =
      enteredReleases st.trace := by
  unfold Service.disassociateAddress WaitForWithRetryable
  rcases hw : waitLoop steps st (s.disassociateAttempt ip) [authFailure] Option.none
    with ⟨st1, werr⟩
  have h1 : enteredReleases st1.trace = enteredReleases st.trace := by
    have := enteredReleases_waitLoop (s.disassociateAttempt ip)
      (enteredReleases_disassociateAttempt s ip) steps st [authFailure] Option.none
    rw [hw] at this; exact this
  cases werr <;> simpa using h1

/-- The release condition closure preserves recorded releaser
invocations. -/
theorem enteredReleases_releaseAttempt (s : Service) (steps : Nat) (ip : Address)
    (st : CallState) :
    enteredReleases (s.releaseAttempt steps ip st).1.trace = enteredReleases st.trace := by
  unfold Service.releaseAttempt
  rcases hc : s.callRelease st ip.allocationId with ⟨st1, r⟩
  have h1 : enteredReleases st1.trace = enteredReleases st.trace := by
    have := enteredReleases_callRelease s st ip.allocationId
    rw [hc] at this; exact this
  cases r with
  | error e =>
    cases hassoc : ip.associationId with
    | none => simpa using h1
    | some aid =>
      rcases hdd : s.disassociateAddress steps st1 ip with ⟨st2, dr⟩
      have h2 : enteredReleases st2.trace = enteredReleases st1.trace := by
        have := enteredReleases_disassociateAddress s steps st1 ip
        rw [hdd] at this; exact this
      cases dr <;> simp [hdd, h2, h1]
  | ok u => simpa using h1

/-- The release waiter preserves recorded releaser invocations. -/
theorem enteredReleases_releaseWait (s : Service) (steps : Nat) (st : CallState)
    (ip : Address) :
    enteredReleases (s.releaseWait steps st ip).1.trace = enteredReleases st.trace := by
  unfold Service.releaseWait WaitForWithRetryable
  rcases hw : waitLoop steps st (s.releaseAttempt steps ip)
      [authFailure, inUseIPAddress] Option.none with ⟨st1, werr⟩
  have h1 : enteredReleases st1.trace = enteredReleases st.trace := by
    have := enteredReleases_waitLoop (s.releaseAttempt steps ip)
      (enteredReleases_releaseAttempt s steps ip) steps st
      [authFailure, inUseIPAddress] Option.none
    rw [hw] at this; exact this
  cases werr <;> simpa using h1

/-- Each `releaseAddress` run records exactly one releaser invocation,
for its own address. -/
theorem enteredReleases_releaseAddress (s : Service) (steps : Nat) (st : CallState)
    (ip : Address) :
    enteredReleases (s.releaseAddress steps st ip).1.trace =
      enteredReleases st.trace ++ [ip] := by
  unfold Service.releaseAddress
  have henter : enteredReleases (st.trace ++ [Event.enterReleaseAddress ip]) =
      enteredReleases st.trace ++ [ip] := by
    simp [enteredReleases_append, enteredReleases]
  cases hassoc : ip.associationId with
  | none =>
    rw [enteredReleases_releaseWait]
    exact henter
  | some aid =>
    rcases hc : s.callDisassociate
        { st with trace := st.trace ++ [Event.enterReleaseAddress ip] }
        (some aid) with ⟨st1, r⟩
    have h1 : enteredReleases st1.trace = enteredReleases st.trace ++ [ip] := by
      have := enteredReleases_callDisassociate s
        { st with trace := st.trace ++ [Event.enterReleaseAddress ip] } (some aid)
      rw [hc] at this; rw [this]; exact henter
    cases r with
    | error e => simp [hc, h1]
    | ok u =>
      simp only [hc]
      rw [enteredReleases_releaseWait]
      exact h1

/-- Complete characterization of the sequential release loop: either
every release succeeds and the releaser was invoked once per address
in list order, or there is a first failing index `j` such that the
prefix before `j` was released successfully, the releaser was invoked
exactly on the first `j+1` addresses, and the returned error is the
one produced at index `j`. -/
theorem releaseLoop_fail_fast (s : Service) (steps : Nat) :
    ∀ (addrs : List Address) (st : CallState),
      (∃ st', s.releaseLoop steps st addrs = (st', .ok ()) ∧
        enteredReleases st'.trace = enteredReleases st.trace ++ addrs) ∨
      (∃ (j : Nat) (hj : j < addrs.length) (e : GoErr) (st' stj : CallState),
        s.releaseLoop steps st addrs = (st', .error e) ∧
        enteredReleases st'.trace = enteredReleases st.trace ++ addrs.take (j+1) ∧
        s.releaseLoop steps st (addrs.take j) = (stj, .ok ()) ∧
        s.releaseAddress steps stj (addrs.get ⟨j, hj⟩) = (st', .error e)) := by
  intro addrs
  induction addrs with
  | nil =>
    intro st
    left
    exact ⟨st, rfl, by simp⟩
  | cons a rest ih =>
    intro st
    rcases hra : s.releaseAddress steps st a with ⟨st1, r⟩
    have hent : enteredReleases st1.trace = enteredReleases st.trace ++ [a] := by
      have := enteredReleases_releaseAddress s steps st a
      rw [hra] at this; exact this
    cases r with
    | error e =>
      right
      refine ⟨0, by simp, e, st1, st, ?_, ?_, ?_, ?_⟩
      · simp [Service.releaseLoop, hra]
      · simpa using hent
      · simp [Service.releaseLoop]
      · simpa using hra
    | ok u =>
      cases u
      have hloop : s.releaseLoop steps st (a :: rest) = s.releaseLoop steps st1 rest := by
        simp [Service.releaseLoop, hra]
      rcases ih st1 with ⟨st', hrun, hent'⟩ | ⟨j, hj, e, st', stj, hrun, hent', hpre, hfail⟩
      · left
        refine ⟨st', by rw [hloop]; exact hrun, ?_⟩
        rw [hent', hent]
        simp
      · right
        refine ⟨j + 1, by simpa using hj, e, st', stj, ?_, ?_, ?_, ?_⟩
        · rw [hloop]; exact hrun
        · rw [hent', hent]
          simp [List.take_succ_cons]
        · simp only [List.take_succ_cons, Service.releaseLoop, hra]
          exact hpre
        · simpa using hfail

/-- Claim C6: bulk release invokes the single-address releaser
sequentially in list order over the described addresses; on the first
release error the run stops — the earlier addresses were released, the
failing address produced the returned error, and the releaser was
never invoked on any later address. -/
theorem releaseAddresses_fail_fast
    (s : Service) (steps : Nat) (st : CallState) (filters : List Filter)
    (out : DescribeAddressesOutput)
    (hdesc : s.client.describeAddressesResp filters = .ok (some out)) :
    (∃ st', s.releaseAddresses steps st filters = (st', .ok ()) ∧
      enteredReleases st'.trace = enteredReleases st.trace ++ out.addresses) ∨
    (∃ (j : Nat) (hj : j < out.addresses.length) (e : GoErr) (st' stj : CallState),
      s.releaseAddresses steps st filters = (st', .error e) ∧
      enteredReleases st'.trace = enteredReleases st.trace ++ out.addresses.take (j+1) ∧
      s.releaseLoop steps
        { st with trace := st.trace ++ [Event.describeAddressesCall filters] }
        (out.addresses.take j) = (stj, .ok ()) ∧
      s.releaseAddress steps stj (out.addresses.get ⟨j, hj⟩) = (st', .error e)) := by
  have h1 : s.releaseAddresses steps st filters =
      s.releaseLoop steps
        { st with trace := st.trace ++ [Event.describeAddressesCall filters] }
        out.addresses := by
    simp [Service.releaseAddresses, Service.callDescribeAddresses, hdesc]
  have he : enteredReleases
      ({ st with trace := st.trace ++ [Event.describeAddressesCall filters] } :
        CallState).trace = enteredReleases st.trace := by
    simp [enteredReleases_append, enteredReleases]
  rcases releaseLoop_fail_fast s steps out.addresses
      { st with trace := st.trace ++ [Event.describeAddressesCall filters] } with
    ⟨st', hrun, hent⟩ | ⟨j, hj, e, st', stj, hrun, hent, hpre, hfail⟩
  · left
    refine ⟨st', ?_, ?_⟩
    · rw [h1]; exact hrun
    · rw [hent, he]
  · right
    refine ⟨j, hj, e, st', stj, ?_, ?_, hpre, hfail⟩
    · rw [h1]; exact hrun
    · rw [hent, he]

/-- Witness for C6: three matched addresses where the second release
fails terminally — the theorem's disjunction holds at this input (in
fact its failing branch, with the third address never attempted). -/
theorem releaseAddresses_fail_fast_witness :
    (∃ st', svcSecondReleaseFails.releaseAddresses 3 CallState.init
        [Filter.cluster "cluster-a"] = (st', .ok ()) ∧
      enteredReleases st'.trace =
        enteredReleases CallState.init.trace ++ [addrX, addrY, addrZ]) ∨
    (∃ (j : Nat) (hj : j < ([addrX, addrY, addrZ] : List Address).length) (e : GoErr)
        (st' stj : CallState),
      svcSecondReleaseFails.releaseAddresses 3 CallState.init
        [Filter.cluster "cluster-a"] = (st', .error e) ∧
      enteredReleases st'.trace =
        enteredReleases CallState.init.trace ++
          ([addrX, addrY, addrZ] : List Address).take (j+1) ∧
      svcSecondReleaseFails.releaseLoop 3
        { CallState.init with trace := CallState.init.trace ++
            [Event.describeAddressesCall [Filter.cluster "cluster-a"]] }
        (([addrX, addrY, addrZ] : List Address).take j) = (stj, .ok ()) ∧
      svcSecondReleaseFails.releaseAddress 3 stj
        (([addrX, addrY, addrZ] : List Address).get ⟨j, hj⟩) = (st', .error e)) :=
  releaseAddresses_fail_fast svcSecondReleaseFails 3 CallState.init
    [Filter.cluster "cluster-a"] ⟨[addrX, addrY, addrZ]⟩ rfl

/-- Under a provider that always answers release with an error and
disassociate with success, one release attempt of the waiter condition
issues exactly one release call followed by one inline disassociate
call, and reports the release error. -/
theorem releaseAttempt_always_fails_spec
    (s : Service) (m : Nat) (ip : Address) (aid : String) (er : AwsErr)
    (hassoc : ip.associationId = some aid)
    (hrel : ∀ n, s.client.releaseResp n ip.allocationId = .error er)
    (hdis : ∀ n, s.client.disassociateResp n (some aid) = .ok ()) :
    ∀ st, s.releaseAttempt (m + 1) ip st =
      (⟨st.trace ++ [Event.releaseCall ip.allocationId, Event.disassociateCall (some aid)],
        st.nAllocate, st.nDisassociate + 1, st.nRelease + 1⟩,
        false, some er) := by
  intro st
  simp only [Service.releaseAttempt, Service.callRelease, hrel, hassoc,
    Service.disassociateAddress, WaitForWithRetryable, waitLoop,
    Service.disassociateAttempt, Service.callDisassociate, hdis]
  simp [List.append_assoc]

/-- The release waiter under an always-failing, retryable release
error: all `k` attempts are consumed, each recording a release call
and an inline disassociate call, and the retryable error is surfaced. -/
theorem waitLoop_release_inuse_spec
    (s : Service) (m : Nat) (ip : Address) (aid : String) (er : AwsErr)
    (hassoc : ip.associationId = some aid)
    (hcode : er.code = inUseIPAddress)
    (hrel : ∀ n, s.client.releaseResp n ip.allocationId = .error er)
    (hdis : ∀ n, s.client.disassociateResp n (some aid) = .ok ()) :
    ∀ (k : Nat), 1 ≤ k → ∀ (st : CallState) (lastErr : Option AwsErr),
      waitLoop k st (s.releaseAttempt (m + 1) ip) [authFailure, inUseIPAddress] lastErr =
        (⟨st.trace ++ (List.replicate k [Event.releaseCall ip.allocationId,
            Event.disassociateCall (some aid)]).flatten,
          st.nAllocate, st.nDisassociate + k, st.nRelease + k⟩,
          some er) := by
  intro k
  induction k with
  | zero => omega
  | succ k ih =>
    intro _ st lastErr
    rw [waitLoop, releaseAttempt_always_fails_spec s m ip aid er hassoc hrel hdis st]
    have hretry : ([authFailure, inUseIPAddress].contains er.code) = true := by
      simp [hcode, List.contains_cons]
    simp only [hretry, if_true]
    cases k with
    | zero =>
      simp [waitLoop, List.replicate_succ]
    | succ k' =>
      rw [ih (by omega) _ (some er)]
      simp [Prod.mk.injEq, CallState.mk.injEq, List.replicate_succ,
        List.flatten_cons, List.append_assoc]
      try omega

/-- Claim C7: (a) when the provider keeps reporting an "in use"
release failure for an address with an association id and inline
disassociation succeeds, the release waiter performs exactly `steps`
release attempts, each followed by an inline disassociate call before
the next retry, and terminates with the error after that bounded
budget; (b) a release error whose code is neither `AuthFailure` nor
`InUseIPAddress` is terminal immediately — exactly one release attempt
is made. -/
theorem releaseAddress_retry_policy :
    (∀ (s : Service) (steps : Nat) (st : CallState) (ip : Address) (aid : String)
        (er : AwsErr),
      1 ≤ steps →
      ip.associationId = some aid →
      er.code = inUseIPAddress →
      (∀ n, s.client.releaseResp n ip.allocationId = .error er) →
      (∀ n, s.client.disassociateResp n (some aid) = .ok ()) →
      s.releaseAddress steps st ip =
        (⟨st.trace ++ Event.enterReleaseAddress ip :: Event.disassociateCall (some aid) ::
            (List.replicate steps [Event.releaseCall ip.allocationId,
              Event.disassociateCall (some aid)]).flatten,
          st.nAllocate, st.nDisassociate + 1 + steps, st.nRelease + steps⟩,
          .error (.wrapped "failed to release ElasticIP" er))) ∧
    (∀ (s : Service) (steps : Nat) (st : CallState) (ip : Address) (er : AwsErr),
      1 ≤ steps →
      ip.associationId = Option.none →
      er.code ≠ authFailure →
      er.code ≠ inUseIPAddress →
      s.client.releaseResp st.nRelease ip.allocationId = .error er →
      s.releaseAddress steps st ip =
        (⟨st.trace ++ [Event.enterReleaseAddress ip, Event.releaseCall ip.allocationId],
          st.nAllocate, st.nDisassociate, st.nRelease + 1⟩,
          .error (.wrapped "failed to release ElasticIP" er))) := by
  constructor
  · intro s steps st ip aid er hsteps hassoc hcode hrel hdis
    cases steps with
    | zero => omega
    | succ m =>
      simp only [Service.releaseAddress, hassoc, Service.callDisassociate, hdis,
        Service.releaseWait, WaitForWithRetryable]
      rw [waitLoop_release_inuse_spec s m ip aid er hassoc hcode hrel hdis (m + 1)
        (by omega) _ Option.none]
      simp [Prod.mk.injEq, CallState.mk.injEq, List.append_assoc, List.cons_append,
        List.nil_append]
      try omega
  · intro s steps st ip er hsteps hassoc hauth hinuse hrel
    cases steps with
    | zero => omega
    | succ m =>
      have hretry : ([authFailure, inUseIPAddress].contains er.code) = false := by
        simp only [List.contains_cons, List.contains_nil, Bool.or_false,
          Bool.or_eq_false_iff, beq_eq_false_iff_ne, ne_eq]
        exact ⟨hauth, hinuse⟩
      simp only [Service.releaseAddress, hassoc, Service.releaseWait,
        WaitForWithRetryable, waitLoop, Service.releaseAttempt, Service.callRelease,
        hrel, hretry, Bool.false_eq_true, if_false]
      simp [List.append_assoc]

/-- Witness for C7: part (a) at a service whose releases always report
"in use" with successful inline disassociation, and part (b) at a
service whose releases fail with a non-retryable code. -/
theorem releaseAddress_retry_policy_witness :
    (svcInUse.releaseAddress 2 CallState.init addrAssoc =
      (⟨CallState.init.trace ++ Event.enterReleaseAddress addrAssoc ::
          Event.disassociateCall (some "eipassoc-1") ::
          (List.replicate 2 [Event.releaseCall addrAssoc.allocationId,
            Event.disassociateCall (some "eipassoc-1")]).flatten,
        CallState.init.nAllocate, CallState.init.nDisassociate + 1 + 2,
        CallState.init.nRelease + 2⟩,
        .error (.wrapped "failed to release ElasticIP"
          ⟨inUseIPAddress, "still associated"⟩))) ∧
    (svcTerminalRelease.releaseAddress 2 CallState.init addrX =
      (⟨CallState.init.trace ++ [Event.enterReleaseAddress addrX,
          Event.releaseCall addrX.allocationId],
        CallState.init.nAllocate, CallState.init.nDisassociate,
        CallState.init.nRelease + 1⟩,
        .error (.wrapped "failed to release ElasticIP"
          ⟨"InvalidAllocationID.NotFound", "gone"⟩))) :=
  ⟨releaseAddress_retry_policy.1 svcInUse 2 CallState.init addrAssoc "eipassoc-1"
      ⟨inUseIPAddress, "still associated"⟩ (by decide) rfl rfl (fun _ => rfl) (fun _ => rfl),
    releaseAddress_retry_policy.2 svcTerminalRelease 2 CallState.init addrX
      ⟨"InvalidAllocationID.NotFound", "gone"⟩ (by decide) rfl (by decide) (by decide) rfl⟩

/-- The capacity pre-flight always leaves the state at exactly one
extra describe-pools event. -/
theorem publicIpv4PoolHasFreeIPs_state (s : Service) (st : CallState) (want : Int) :
    (s.publicIpv4PoolHasFreeIPs st want).1 =
      { st with trace := st.trace ++ [Event.describePoolsCall [s.vpc.publicIpv4Pool]] } := by
  unfold Service.publicIpv4PoolHasFreeIPs Service.callDescribePools
  cases hr : s.client.describePoolsResp [s.vpc.publicIpv4Pool] with
  | error e => rfl
  | ok pools =>
    dsimp only
    cases hl : pools.publicIpv4Pools with
    | nil => rfl
    | cons pool rest =>
      cases rest with
      | nil =>
        dsimp only
        split <;> rfl
      | cons p2 r2 => rfl

/-- The capacity pre-flight never reports "no free IPs" without an
error: exhaustion itself is returned as an error, so the `(false, nil)`
outcome the fallback branch of `setByoPublicIpv4` waits for cannot
occur. -/
theorem publicIpv4PoolHasFreeIPs_never_false (s : Service) (st : CallState) (want : Int) :
    (s.publicIpv4PoolHasFreeIPs st want).2 ≠ .ok false := by
  unfold Service.publicIpv4PoolHasFreeIPs Service.callDescribePools
  cases hr : s.client.describePoolsResp [s.vpc.publicIpv4Pool] with
  | error e => simp
  | ok pools =>
    dsimp only
    cases hl : pools.publicIpv4Pools with
    | nil => simp
    | cons pool rest =>
      cases rest with
      | nil =>
        dsimp only
        split <;> simp
      | cons p2 r2 => simp

/-- The BYO-pool pre-flight records at most one describe-pools event
and never changes the domain or the tag specification of the allocate
input it returns. -/
theorem setByoPublicIpv4_shape (s : Service) (st : CallState) (a : AllocateAddressInput) :
    ((s.setByoPublicIpv4 st a).1.trace = st.trace ∨
      (s.setByoPublicIpv4 st a).1.trace =
        st.trace ++ [Event.describePoolsCall [s.vpc.publicIpv4Pool]]) ∧
    (∀ a', (s.setByoPublicIpv4 st a).2 = .ok a' →
      a'.domain = a.domain ∧ a'.tagSpecifications = a.tagSpecifications) := by
  unfold Service.setByoPublicIpv4
  cases hp : s.vpc.publicIpv4Pool with
  | none =>
    refine ⟨Or.inl rfl, ?_⟩
    intro a' h
    cases h
    exact ⟨rfl, rfl⟩
  | some p =>
    dsimp only
    rcases hf : s.publicIpv4PoolHasFreeIPs st 1 with ⟨st1, r⟩
    have hst1 : st1.trace = st.trace ++ [Event.describePoolsCall [some p]] := by
      have hps := publicIpv4PoolHasFreeIPs_state s st 1
      rw [hf, hp] at hps
      exact congrArg CallState.trace hps
    cases r with
    | error e =>
      refine ⟨Or.inr hst1, ?_⟩
      intro a' h
      simp at h
    | ok ok =>
      cases ok with
      | false =>
        have hnf := publicIpv4PoolHasFreeIPs_never_false s st 1
        rw [hf] at hnf
        exact absurd rfl hnf
      | true =>
        dsimp only
        refine ⟨Or.inr ?_, ?_⟩
        · simpa using hst1
        · intro a' h
          simp only [eq_self_iff_true, if_true, Except.ok.injEq] at h
          subst h
          exact ⟨rfl, rfl⟩

/-- Every allocate request issued by `allocateAddress` carries the
`vpc` domain and the tag specification built from
`getEIPTagParams role`, attached in the request itself. -/
theorem allocateAddress_request_tags
    (s : Service) (st : CallState) (role : String) (i : AllocateAddressInput)
    (hmem : Event.allocateCall i ∈
      ((s.allocateAddress st role).1.trace.drop st.trace.length)) :
    i.domain = some "vpc" ∧
    i.tagSpecifications =
      [BuildParamsToTagSpecification resourceTypeElasticIp (s.getEIPTagParams role)] := by
  have hshape := setByoPublicIpv4_shape s st (allocInputBase s role)
  revert hmem
  unfold Service.allocateAddress
  rcases hsb : s.setByoPublicIpv4 st (allocInputBase s role) with ⟨st1, r⟩
  rw [hsb] at hshape
  have htr : st1.trace = st.trace ∨
      st1.trace = st.trace ++ [Event.describePoolsCall [s.vpc.publicIpv4Pool]] :=
    hshape.1
  cases r with
  | error e =>
    dsimp only
    intro hmem
    rcases htr with h | h
    · rw [h, List.drop_length] at hmem
      simp at hmem
    · rw [h, List.drop_left] at hmem
      simp at hmem
  | ok a0 =>
    dsimp only
    have hfields : a0.domain = (allocInputBase s role).domain ∧
        a0.tagSpecifications = (allocInputBase s role).tagSpecifications :=
      hshape.2 a0 rfl
    rcases hca : s.callAllocate st1 a0 with ⟨st2, r2⟩
    have hst2 : st2.trace = st1.trace ++ [Event.allocateCall a0] := by
      have hc : (s.callAllocate st1 a0).1.trace =
          st1.trace ++ [Event.allocateCall a0] := rfl
      rw [hca] at hc
      exact hc
    cases r2 <;>
      · dsimp only
        intro hmem
        rw [hst2] at hmem
        rcases htr with h | h
        · rw [h, List.drop_left] at hmem
          have hi : i = a0 := by simpa using hmem
          subst hi
          exact ⟨hfields.1, hfields.2⟩
        · rw [h, List.append_assoc, List.drop_left] at hmem
          rcases List.mem_append.mp hmem with h1 | h1
          · simp at h1
          · have hi : i = a0 := by simpa using h1
            subst hi
            exact ⟨hfields.1, hfields.2⟩

/-- Claim C8: every address created by this core carries the cluster
name, `lifecycle = owned`, `role`, and `name = "<cluster>-eip-<role>"`
tags inside the allocate request itself (the trace records no separate
tagging call — no tag event even exists); and every address query uses
the cluster-identity filter, with the role filter appended in
`describeAddresses` exactly when a non-empty role is supplied, while
the two bulk-release entry points query with the cluster filter alone
and with cluster plus role respectively. -/
theorem eip_tagging_and_filtering :
    (∀ (s : Service) (st : CallState) (role : String) (i : AllocateAddressInput),
      Event.allocateCall i ∈ ((s.allocateAddress st role).1.trace.drop st.trace.length) →
      i.domain = some "vpc" ∧
      i.tagSpecifications =
        [BuildParamsToTagSpecification resourceTypeElasticIp (s.getEIPTagParams role)] ∧
      s.getEIPTagParams role =
        ⟨s.name, resourceLifecycleOwned, some (s.name ++ "-eip-" ++ role), some role,
          s.additionalTags⟩) ∧
    (∀ (s : Service) (role : String),
      describeAddressesFilters s role =
        if role = "" then [Filter.cluster s.name]
        else [Filter.cluster s.name, Filter.providerRole role]) ∧
    (∀ (s : Service) (role : String),
      Filter.cluster s.name ∈ describeAddressesFilters s role) ∧
    (∀ (s : Service) (st : CallState) (role : String),
      (s.describeAddresses st role).1.trace =
        st.trace ++ [Event.describeAddressesCall (describeAddressesFilters s role)]) ∧
    (∀ (s : Service) (steps : Nat) (st : CallState),
      s.ReleaseAddresses steps st = s.releaseAddresses steps st [Filter.cluster s.name]) ∧
    (∀ (s : Service) (steps : Nat) (st : CallState) (role : String),
      s.ReleaseAddressByRole steps st role =
        s.releaseAddresses steps st [Filter.cluster s.name, Filter.providerRole role]) := by
  refine ⟨?_, ?_, ?_, ?_, ?_, ?_⟩
  · intro s st role i hmem
    exact ⟨(allocateAddress_request_tags s st role i hmem).1,
      (allocateAddress_request_tags s st role i hmem).2, rfl⟩
  · intro s role
    by_cases h : role = "" <;> simp [describeAddressesFilters, h]
  · intro s role
    by_cases h : role = "" <;> simp [describeAddressesFilters, h]
  · intro s st role
    rfl
  · intro s steps st
    rfl
  · intro s steps st role
    rfl

/-- Witness for C8 at a concrete service and roles. -/
theorem eip_tagging_and_filtering_witness :
    ((allocInputBase svcTwoUnassociated "api").domain = some "vpc" ∧
      (allocInputBase svcTwoUnassociated "api").tagSpecifications =
        [BuildParamsToTagSpecification resourceTypeElasticIp
          (svcTwoUnassociated.getEIPTagParams "api")] ∧
      svcTwoUnassociated.getEIPTagParams "api" =
        ⟨svcTwoUnassociated.name, resourceLifecycleOwned,
          some (svcTwoUnassociated.name ++ "-eip-" ++ "api"), some "api",
          svcTwoUnassociated.additionalTags⟩) ∧
    (describeAddressesFilters svcTwoUnassociated "" =
      if "" = "" then [Filter.cluster svcTwoUnassociated.name]
      else [Filter.cluster svcTwoUnassociated.name, Filter.providerRole ""]) ∧
    Filter.cluster svcTwoUnassociated.name ∈
      describeAddressesFilters svcTwoUnassociated "api" ∧
    ((svcTwoUnassociated.describeAddresses CallState.init "api").1.trace =
      CallState.init.trace ++
        [Event.describeAddressesCall (describeAddressesFilters svcTwoUnassociated "api")]) ∧
    (svcTwoUnassociated.ReleaseAddresses 3 CallState.init =
      svcTwoUnassociated.releaseAddresses 3 CallState.init
        [Filter.cluster svcTwoUnassociated.name]) ∧
    (svcTwoUnassociated.ReleaseAddressByRole 3 CallState.init "api" =
      svcTwoUnassociated.releaseAddresses 3 CallState.init
        [Filter.cluster svcTwoUnassociated.name, Filter.providerRole "api"]) :=
  ⟨eip_tagging_and_filtering.1 svcTwoUnassociated CallState.init "api"
      (allocInputBase svcTwoUnassociated "api") (by decide),
    eip_tagging_and_filtering.2.1 svcTwoUnassociated "",
    eip_tagging_and_filtering.2.2.1 svcTwoUnassociated "api",
    eip_tagging_and_filtering.2.2.2.1 svcTwoUnassociated CallState.init "api",
    eip_tagging_and_filtering.2.2.2.2.1 svcTwoUnassociated 3 CallState.init,
    eip_tagging_and_filtering.2.2.2.2.2 svcTwoUnassociated 3 CallState.init "api"⟩

end CapaEip
